import Mathlib

/-!
# Verification of `sat_monitor.py`

A shallow embedding of the SAT test-dates monitor. HTML documents are
modelled as parsed trees (the HTML parser, `BeautifulSoup`, is an external
collaborator); filesystem state is modelled explicitly; the MD5 digest and
the JSON encoder are external deterministic functions and appear as
parameters. Every definition follows the corresponding Python function,
with comments pointing at the source lines it embeds.
-/

namespace SatMonitor

/-- A node of a parsed HTML document, as produced by the external HTML
parser: an element with a tag name, attributes (name/value pairs in
document order) and children; a text node; or a comment node. -/
inductive Node where
  | element (name : String) (attrs : List (String × String)) (children : List Node)
  | text (s : String)
  | comment (s : String)
deriving Repr

/-- A whitespace character, as matched by Python's `\s` regex class and
stripped by `str.strip()` (restricted to the ASCII range, which is all the
monitored documents use). -/
def pyIsSpace (c : Char) : Bool :=
  c = ' ' || c = '\t' || c = '\n' || c = '\r' || c = '\u000B' || c = '\u000C'

/-- Character-list prefix test, modelling Python's `str.startswith`. -/
def charsPrefix : List Char → List Char → Bool
  | [], _ => true
  | _ :: _, [] => false
  | a :: as, b :: bs => a = b && charsPrefix as bs

/-- `sat_monitor.py` lines 63–65: an attribute is stripped when its name
starts with `data-` or is one of `class`, `id`, `style`, `data-reactid`,
`data-react-checksum` (the last two are `data-` names, kept for fidelity). -/
def isVolatileAttr (name : String) : Bool :=
  charsPrefix "data-".data name.data || name = "class" || name = "id"
    || name = "style" || name = "data-reactid" || name = "data-react-checksum"

mutual
/-- Steps 1–5 of `clean_html_for_hash` (lines 44–69): decompose every
`script`, `style` and `meta` element, extract every comment, and delete
the volatile attributes of every remaining element. Removal of a node
returns `[]`; a kept node returns a singleton. -/
def cleanNode : Node → List Node
  | .comment _ => []
  | .text s => [.text s]
  | .element name attrs children =>
    if name = "script" || name = "style" || name = "meta" then []
    else [.element name (attrs.filter (fun a => !isVolatileAttr a.1))
            (cleanNodes children)]

/-- `cleanNode` mapped over a forest of siblings. -/
def cleanNodes : List Node → List Node
  | [] => []
  | n :: ns => cleanNode n ++ cleanNodes ns
end

/-- Attribute serialization inside a start tag: ` name="value"` for each
attribute, in order. -/
def serializeAttrs : List (String × String) → String
  | [] => ""
  | (n, v) :: rest => " " ++ n ++ "=\"" ++ v ++ "\"" ++ serializeAttrs rest

mutual
/-- Model of `str(soup)` on one node: elements render as
`<name attrs>children</name>`, text renders verbatim, comments render in
comment markup. -/
def serializeNode : Node → String
  | .text s => s
  | .comment s => "<!--" ++ s ++ "-->"
  | .element name attrs children =>
    "<" ++ name ++ serializeAttrs attrs ++ ">" ++ serializeNodes children
      ++ "</" ++ name ++ ">"

/-- `serializeNode` concatenated over a forest of siblings. -/
def serializeNodes : List Node → String
  | [] => ""
  | n :: ns => serializeNode n ++ serializeNodes ns
end

/-- Replace every maximal run of whitespace characters by a single space,
as `re.sub(r'\s+', ' ', cleaned_html)` does on line 75. The flag records
whether the previous character belonged to a whitespace run. -/
def collapseAux : List Char → Bool → List Char
  | [], _ => []
  | c :: rest, prevWs =>
    if pyIsSpace c then
      if prevWs then collapseAux rest true
      else ' ' :: collapseAux rest true
    else c :: collapseAux rest false

/-- Whitespace collapsing on strings. -/
def collapseWs (s : String) : String :=
  ⟨collapseAux s.data false⟩

/-- Whether a node is a `table` element. -/
def isTable : Node → Bool
  | .element name _ _ => name = "table"
  | _ => false

mutual
/-- Pre-order (document-order) search for the first node satisfying `p`,
the node itself included, as `soup.find(...)` does. -/
def findFirstNode (p : Node → Bool) : Node → Option Node
  | .element name attrs children =>
    if p (.element name attrs children) then some (.element name attrs children)
    else findFirstList p children
  | n => if p n then some n else none

/-- Pre-order search over a forest of siblings. -/
def findFirstList (p : Node → Bool) : List Node → Option Node
  | [] => none
  | n :: ns =>
    match findFirstNode p n with
    | some r => some r
    | none => findFirstList p ns
end

/-- `clean_html_for_hash` (lines 33–89) on a parsed document. Steps 1–5
clean the tree; steps 6–7 serialize it and collapse whitespace; step 8
reparses the collapsed text and, when a `table` element is present, keeps
only that table's serialization (whose internal whitespace was collapsed
by step 7; whitespace runs cannot cross tag delimiters, so collapsing the
table's own serialization is the same text). The parse/serialize round
trip of step 8 is modelled by locating the first table directly in the
cleaned tree. -/
def clean_html_for_hash (doc : List Node) : String :=
  let cleanedDoc := cleanNodes doc
  let cleaned_html := collapseWs (serializeNodes cleanedDoc)
  match findFirstList isTable cleanedDoc with
  | some t => collapseWs (serializeNode t)
  | none => cleaned_html

/-- `calculate_content_hash` (lines 92–97): clean the document, then hash
it. The MD5 hex digest is an external deterministic function of the
cleaned text and is passed as the parameter `md5`. -/
def calculate_content_hash (md5 : String → String) (doc : List Node) : String :=
  md5 (clean_html_for_hash doc)

/-- The children of a node (elements only; text and comments have none). -/
def childrenOf : Node → List Node
  | .element _ _ c => c
  | _ => []

mutual
/-- All nodes satisfying `p` in a subtree, in document (pre-)order, the
root included, as `find_all` collects matches. -/
def findAllNode (p : Node → Bool) : Node → List Node
  | .element name attrs children =>
    (if p (.element name attrs children) then [Node.element name attrs children]
     else []) ++ findAllList p children
  | n => if p n then [n] else []

/-- All matches of `p` across a forest of siblings, in document order. -/
def findAllList (p : Node → Bool) : List Node → List Node
  | [] => []
  | n :: ns => findAllNode p n ++ findAllList p ns
end

mutual
/-- Model of `get_text()`: the concatenation of all text descendants of a
node, in document order (comments are not included). -/
def nodeTextOf : Node → String
  | .text s => s
  | .comment _ => ""
  | .element _ _ c => nodeTextList c

/-- `nodeTextOf` concatenated over a forest of siblings. -/
def nodeTextList : List Node → String
  | [] => ""
  | n :: ns => nodeTextOf n ++ nodeTextList ns
end

/-- Model of Python's `str.strip()`: drop whitespace from the front, then
from the back. -/
def pyStrip (s : String) : String :=
  ⟨((s.data.dropWhile pyIsSpace).reverse.dropWhile pyIsSpace).reverse⟩

/-- Lower-casing a string character by character, modelling `str.lower()`
for the ASCII range. -/
def lowerStr (s : String) : String :=
  ⟨s.data.map Char.toLower⟩

/-- Whether `needle` occurs as a prefix of `hay`. -/
def isSubAt : List Char → List Char → Bool
  | [], _ => true
  | _ :: _, [] => false
  | a :: as, b :: bs => a = b && isSubAt as bs

/-- Whether `needle` occurs as a contiguous substring of `hay`, modelling
Python's `in` operator on strings. -/
def containsSub (needle : List Char) : List Char → Bool
  | [] => needle.isEmpty
  | c :: rest => isSubAt needle (c :: rest) || containsSub needle rest

/-- The first value bound to `name` in an attribute list, if any. -/
def getAttr (attrs : List (String × String)) (name : String) : Option String :=
  (attrs.find? (fun a => a.1 = name)).map (fun a => a.2)

/-- The primary selector of `extract_test_dates` (line 208): a `table`
element whose `class` attribute is exactly `cb-table cb-no-margin-top`
(matching a whitespace-containing class string against the full attribute
value, as `find(class_=...)` does). -/
def hasTargetMarker : Node → Bool
  | .element name attrs _ =>
    name = "table" && decide (getAttr attrs "class" = some "cb-table cb-no-margin-top")
  | _ => false

/-- Whether a node is a `th` element. -/
def isTh : Node → Bool
  | .element name _ _ => name = "th"
  | _ => false

/-- Whether a node is a `tr` element. -/
def isTr : Node → Bool
  | .element name _ _ => name = "tr"
  | _ => false

/-- A `th` element carrying `scope="row"`, the date cell selector of
line 232 (`row.find('th', scope='row')`). -/
def isDateCell : Node → Bool
  | .element name attrs _ =>
    name = "th" && decide (getAttr attrs "scope" = some "row")
  | _ => false

/-- The fallback condition of lines 216–219: a candidate table must have a
`th` descendant and the word `date` somewhere in its lower-cased text. -/
def fallbackTablePred (t : Node) : Bool :=
  (findFirstList isTh (childrenOf t)).isSome
    && containsSub "date".data (lowerStr (nodeTextOf t)).data

/-- Lines 226–237 of `extract_test_dates`: collect the rows of the chosen
table, skip the header row, take each remaining row's first
`th[scope=row]` cell, and keep its stripped text when the stripped text is
non-empty and the cell text has a digit. -/
def datesFromTable (t : Node) : List String :=
  let rows := findAllList isTr (childrenOf t)
  (rows.drop 1).filterMap fun row =>
    match findFirstList isDateCell (childrenOf row) with
    | none => none
    | some cell =>
      let txt := nodeTextOf cell
      if !(pyStrip txt).data.isEmpty && txt.data.any Char.isDigit then
        some (pyStrip txt)
      else none

/-- `extract_test_dates` (lines 198–240) on a parsed document: look for
the table with the expected class; failing that, scan all tables for the
first one matching `fallbackTablePred`; with no table at all, return `[]`;
otherwise extract the date cells of the chosen table. -/
def extract_test_dates (doc : List Node) : List String :=
  let primary := findFirstList hasTargetMarker doc
  let table :=
    match primary with
    | some t => some t
    | none => (findAllList isTable doc).find? fallbackTablePred
  match table with
  | none => []
  | some t => datesFromTable t

/-! ## Persisted state, decision engine and run model -/

/-- The JSON record built by `save_state` (lines 181–185): fields
`content_hash`, `test_date_count` and `test_dates`. -/
structure PersistedState where
  content_hash : String
  test_date_count : Nat
  test_dates : List String
deriving Repr, DecidableEq

/-- The decision computed in `main` (lines 466–500): whether to notify,
whether the page changed, and the previous hash reported on a hash
mismatch. -/
structure Decision where
  should_notify : Bool
  page_changed : Bool
  prev_hash : Option String
deriving Repr, DecidableEq

/-- Line 29: `DATE_THRESHOLD = 7`. -/
def DATE_THRESHOLD : Int := 7

/-- Python's `set(a) == set(b)` on string lists: the same elements occur
in both, multiplicity and order disregarded. -/
def sameSet (a b : List String) : Bool :=
  a.all (fun x => b.contains x) && b.all (fun x => a.contains x)

/-- Line 498: the threshold test `len(test_dates) > DATE_THRESHOLD`,
parametrised by the integer threshold. -/
def thresholdExceeded (test_dates : List String) (threshold : Int) : Bool :=
  decide ((test_dates.length : Int) > threshold)

/-- Lines 466–500 of `main`: with a prior state, a hash mismatch marks the
page changed (recording the previous hash); with equal hashes, a date-set
difference also marks it changed (without recording the hash, as the
Python leaves `prev_hash = None` in that branch); with no prior state
nothing fires. Afterwards the threshold test can set `should_notify` on
its own. -/
def decideNotification (prev_state : Option PersistedState) (content_hash : String)
    (test_dates : List String) (threshold : Int) : Decision :=
  let base : Decision :=
    match prev_state with
    | some prev =>
      if content_hash ≠ prev.content_hash then
        { should_notify := true, page_changed := true,
          prev_hash := some prev.content_hash }
      else if !sameSet test_dates prev.test_dates then
        { should_notify := true, page_changed := true, prev_hash := none }
      else
        { should_notify := false, page_changed := false, prev_hash := none }
    | none => { should_notify := false, page_changed := false, prev_hash := none }
  if thresholdExceeded test_dates threshold then
    { base with should_notify := true }
  else base

/-- The files the state store touches: the canonical state file, the
temporary file `sat_monitor_state.json.tmp`, and the quarantined copies
`sat_monitor_state.json.corrupted.<timestamp>` (held as timestamp/content
pairs). Contents are raw strings; `none` means the file is absent. -/
structure FileSys where
  canonical : Option String
  temp : Option String
  quarantined : List (Nat × String)
deriving Repr, DecidableEq

/-- The two filesystem steps of `save_state` (lines 188–192): writing the
temporary file (a partially completed write is a `writeTemp` of the bytes
written so far), and the atomic `os.replace` of the canonical file by the
temporary file. -/
inductive SaveOp where
  | writeTemp (s : String)
  | replace
deriving Repr, DecidableEq

/-- Effect of one save step on the filesystem: `writeTemp` only touches
the temporary file; `replace` atomically moves the temporary file onto
the canonical one. -/
def applySaveOp (fs : FileSys) : SaveOp → FileSys
  | .writeTemp s => { fs with temp := some s }
  | .replace =>
    match fs.temp with
    | some s => { fs with canonical := some s, temp := none }
    | none => fs

/-- Run a sequence of save steps left to right. -/
def runOps (fs : FileSys) (ops : List SaveOp) : FileSys :=
  ops.foldl applySaveOp fs

/-- Lines 181–185: the record `save_state` serializes, with
`test_date_count` set to `len(test_dates)`. -/
def save_state_record (content_hash : String) (test_dates : List String) :
    PersistedState :=
  { content_hash := content_hash, test_date_count := test_dates.length,
    test_dates := test_dates }

/-- The step sequence of `save_state` (lines 188–192): dump the JSON to
the temporary file, then `os.replace` it onto the canonical file. The
JSON encoder (`json.dump` with `indent=2`) is an external deterministic
function passed as `encode`. -/
def save_state_ops (st : PersistedState) (encode : PersistedState → String) :
    List SaveOp :=
  [SaveOp.writeTemp (encode st), SaveOp.replace]

/-- `save_state` (lines 179–195) run to completion on a filesystem. -/
def save_state (fs : FileSys) (content_hash : String) (test_dates : List String)
    (encode : PersistedState → String) : FileSys :=
  runOps fs (save_state_ops (save_state_record content_hash test_dates) encode)

/-- `load_state` (lines 151–176): `none` when the canonical file is
absent; the parsed record when `json.load` (the external parser, passed
as `parseJson`) succeeds; on a parse failure, `none` together with the
canonical file renamed aside to a timestamped quarantine entry. -/
def load_state (fs : FileSys) (parseJson : String → Option PersistedState)
    (now : Nat) : Option PersistedState × FileSys :=
  match fs.canonical with
  | none => (none, fs)
  | some raw =>
    match parseJson raw with
    | some st => (some st, fs)
    | none =>
      (none, { canonical := none, temp := fs.temp,
               quarantined := (now, raw) :: fs.quarantined })

/-- Line 105: `max_retries = 3`. -/
def max_retries : Nat := 3

/-- The value `fetch_page` returns on success (lines 132–137, restricted
to the fields `main` consumes): the fetched document (parsed) and its
content hash. -/
structure FetchData where
  content : List Node
  content_hash : String

/-- The retry loop of `fetch_page` (lines 108–148): attempt `i` either
yields a document (`att i = some doc`) or raises a request exception
(`att i = none`); the first success within the remaining budget wins, and
an exhausted budget yields `none`. -/
def fetchGo (md5 : String → String) (att : Nat → Option (List Node)) :
    Nat → Nat → Option FetchData
  | 0, _ => none
  | k + 1, i =>
    match att i with
    | some doc =>
      some { content := doc, content_hash := calculate_content_hash md5 doc }
    | none => fetchGo md5 att k (i + 1)

/-- `fetch_page` (lines 100–148): up to `max_retries` attempts starting
at attempt 0. -/
def fetch_page (md5 : String → String) (att : Nat → Option (List Node)) :
    Option FetchData :=
  fetchGo md5 att max_retries 0

/-- The observable outcome of one run of `main`: the persisted record
after the run, whether notifications were attempted, and the extraction
and decision results (`none` when the run aborted before reaching them). -/
structure RunOutcome where
  savedState : Option PersistedState
  notified : Bool
  extracted : Option (List String)
  decision : Option Decision
deriving Repr, DecidableEq

/-- `main` (lines 441–521) as a function of the external world: the MD5
digest, the fetch attempt outcomes, and the record held in the state file
before the run (the result of `load_state`). A failed fetch returns at
line 451, before extraction, decision, notification and `save_state`, so
the persisted record is unchanged; otherwise the run extracts, decides,
notifies iff `should_notify`, and unconditionally saves the new record. -/
def main (md5 : String → String) (att : Nat → Option (List Node))
    (stored : Option PersistedState) : RunOutcome :=
  match fetch_page md5 att with
  | none =>
    { savedState := stored, notified := false, extracted := none, decision := none }
  | some pd =>
    let test_dates := extract_test_dates pd.content
    let d := decideNotification stored pd.content_hash test_dates DATE_THRESHOLD
    { savedState := some (save_state_record pd.content_hash test_dates),
      notified := d.should_notify,
      extracted := some test_dates,
      decision := some d }

/-! ## Cosmetic-difference relation for the signature claims -/

/-- Two attributes are cosmetically similar when they have the same name
and either the name is volatile (its value is stripped by the cleaner) or
the values agree. -/
def attrSimilar (a b : String × String) : Bool :=
  a.1 = b.1 && (isVolatileAttr a.1 || a.2 = b.2)

/-- Pointwise cosmetic similarity of attribute lists. -/
def attrsSimilar : List (String × String) → List (String × String) → Bool
  | [], [] => true
  | a :: as, b :: bs => attrSimilar a b && attrsSimilar as bs
  | _, _ => false

mutual
/-- Two nodes differ at most cosmetically: equal text and comments; equal
element names with similar attributes; and equal children except inside a
`script` element, whose contents are unconstrained. -/
def similarNode : Node → Node → Bool
  | .text s, .text t => s = t
  | .comment s, .comment t => s = t
  | .element n1 a1 c1, .element n2 a2 c2 =>
    n1 = n2 && attrsSimilar a1 a2 && (n1 = "script" || similarNodes c1 c2)
  | _, _ => false

/-- Pointwise cosmetic similarity of sibling forests. -/
def similarNodes : List Node → List Node → Bool
  | [], [] => true
  | n :: ns, m :: ms => similarNode n m && similarNodes ns ms
  | _, _ => false
end

/-! ## Helper lemmas -/

/-- `sameSet` computes set equality of string lists relative to
membership. -/
theorem sameSet_iff (a b : List String) :
    sameSet a b = true ↔ ∀ x, x ∈ a ↔ x ∈ b := by
  unfold sameSet
  rw [Bool.and_eq_true, List.all_eq_true, List.all_eq_true]
  constructor
  · intro h x
    exact ⟨fun hx => List.elem_iff.mp (h.1 x hx),
           fun hx => List.elem_iff.mp (h.2 x hx)⟩
  · intro h
    exact ⟨fun x hx => List.elem_iff.mpr ((h x).mp hx),
           fun x hx => List.elem_iff.mpr ((h x).mpr hx)⟩

/-- Exhausting the fetch budget yields no page. -/
theorem fetchGo_none (md5 : String → String) (att : Nat → Option (List Node)) :
    ∀ k i, (∀ j, j < k → att (i + j) = none) → fetchGo md5 att k i = none := by
  intro k
  induction k with
  | zero => intro i _; rfl
  | succ n ih =>
    intro i h
    have h0 : att i = none := by simpa using h 0 (Nat.succ_pos n)
    have hrest : ∀ j, j < n → att (i + 1 + j) = none := by
      intro j hj
      have := h (j + 1) (by omega)
      simpa [Nat.add_assoc, Nat.add_comm 1 j] using this
    simp only [fetchGo, h0]
    exact ih (i + 1) hrest

/-! ## Claims -/

/-- C1: with a prior persisted state, the decision reports `ContentChanged`
(`page_changed`) iff the current signature differs from the prior one, or
the signatures agree but the current and prior date lists differ as sets;
in every other prior-state case it does not fire. -/
theorem c1_content_changed_iff (prev : PersistedState) (content_hash : String)
    (test_dates : List String) (threshold : Int) :
    (decideNotification (some prev) content_hash test_dates threshold).page_changed = true ↔
      (content_hash ≠ prev.content_hash ∨
        (content_hash = prev.content_hash ∧
          ¬ ∀ x, x ∈ test_dates ↔ x ∈ prev.test_dates)) := by
  have hpc : (decideNotification (some prev) content_hash test_dates threshold).page_changed
      = (if content_hash = prev.content_hash then !sameSet test_dates prev.test_dates
         else true) := by
    unfold decideNotification
    by_cases hh : content_hash = prev.content_hash <;>
      cases hs : sameSet test_dates prev.test_dates <;>
        cases hth : thresholdExceeded test_dates threshold <;>
          simp [hh, hs, hth]
  rw [hpc]
  by_cases hh : content_hash = prev.content_hash
  · cases hs : sameSet test_dates prev.test_dates
    · have hne : ¬ ∀ x, x ∈ test_dates ↔ x ∈ prev.test_dates := fun hall => by
        rw [(sameSet_iff _ _).mpr hall] at hs
        cases hs
      simp [hh, hs, hne]
    · have hset := (sameSet_iff _ _).mp hs
      simp [hh, hs, hset]
  · simp [hh]

/-- Witness for C1: a hash mismatch fires `ContentChanged`; matching hash
and matching date set do not. -/
theorem c1_content_changed_iff_witness :
    (decideNotification (some ⟨"h1", 1, ["a"]⟩) "h2" ["a"] 7).page_changed = true ∧
    (decideNotification (some ⟨"h1", 1, ["a"]⟩) "h1" ["a"] 7).page_changed = false := by
  constructor
  · exact (c1_content_changed_iff ⟨"h1", 1, ["a"]⟩ "h2" ["a"] 7).mpr
      (Or.inl (by decide))
  · have h := c1_content_changed_iff ⟨"h1", 1, ["a"]⟩ "h1" ["a"] 7
    cases hb : (decideNotification (some ⟨"h1", 1, ["a"]⟩) "h1" ["a"] 7).page_changed
    · rfl
    · exfalso
      rcases h.mp hb with hne | hno
      · exact hne rfl
      · exact hno.2 fun x => Iff.rfl

/-- C2: the threshold reason fires iff the number of dates strictly
exceeds the threshold; length exactly the threshold does not fire, length
threshold+1 does. -/
theorem c2_threshold_boundary (dates : List String) (threshold : Int) :
    (thresholdExceeded dates threshold = true ↔ (dates.length : Int) > threshold) ∧
    ((dates.length : Int) = threshold → thresholdExceeded dates threshold = false) ∧
    ((dates.length : Int) = threshold + 1 → thresholdExceeded dates threshold = true) := by
  refine ⟨?_, ?_, ?_⟩ <;> simp [thresholdExceeded] <;> omega

/-- Witness for C2 at a three-date list with thresholds 3 and 2. -/
theorem c2_threshold_boundary_witness :
    thresholdExceeded ["a", "b", "c"] 3 = false ∧
    thresholdExceeded ["a", "b", "c"] 2 = true :=
  ⟨(c2_threshold_boundary ["a", "b", "c"] 3).2.1 (by decide),
   (c2_threshold_boundary ["a", "b", "c"] 2).2.2 (by decide)⟩

/-- C3: on a first run (no prior state) `ContentChanged` never fires,
whatever the content, yet the run notifies exactly when the date count
exceeds the threshold. -/
theorem c3_first_run (content_hash : String) (test_dates : List String)
    (threshold : Int) :
    (decideNotification none content_hash test_dates threshold).page_changed = false ∧
    ((decideNotification none content_hash test_dates threshold).should_notify = true ↔
      (test_dates.length : Int) > threshold) := by
  unfold decideNotification
  by_cases hth : (test_dates.length : Int) > threshold
  · simp [thresholdExceeded, hth]
  · simp [thresholdExceeded, hth]

/-- Witness for C3: two dates over threshold 1 notify on a first run even
though `ContentChanged` stays silent. -/
theorem c3_first_run_witness :
    (decideNotification none "h" ["a", "b"] 1).page_changed = false ∧
    (decideNotification none "h" ["a", "b"] 1).should_notify = true :=
  ⟨(c3_first_run "h" ["a", "b"] 1).1,
   (c3_first_run "h" ["a", "b"] 1).2.mpr (by decide)⟩

/-- C4: when every fetch attempt within the retry budget fails, the run
aborts with no extraction, no decision, no notification, and the
persisted record is left exactly as it was. -/
theorem c4_fetch_failure_aborts (md5 : String → String)
    (att : Nat → Option (List Node)) (stored : Option PersistedState)
    (h : ∀ i, i < max_retries → att i = none) :
    main md5 att stored =
      { savedState := stored, notified := false, extracted := none,
        decision := none } := by
  have hf : fetch_page md5 att = none := by
    apply fetchGo_none
    intro j hj
    simpa using h j hj
  simp [main, hf]

/-- Witness for C4: all attempts raise, prior record survives. -/
theorem c4_fetch_failure_aborts_witness :
    main (fun s => s) (fun _ => none) (some ⟨"prevhash", 1, ["May 3, 2025"]⟩) =
      { savedState := some ⟨"prevhash", 1, ["May 3, 2025"]⟩, notified := false,
        extracted := none, decision := none } :=
  c4_fetch_failure_aborts _ _ _ (fun _ _ => rfl)

/-- C5: `save_state` writes the temporary file first, then atomically
replaces the canonical file: after any strict prefix of its steps (and
after any partial temporary write at all) the canonical file still holds
the old contents, and after the full sequence it holds exactly the
complete new record. -/
theorem c5_atomic_save (fs : FileSys) (content_hash : String)
    (test_dates : List String) (encode : PersistedState → String) (k : Nat)
    (hk : k < (save_state_ops (save_state_record content_hash test_dates) encode).length) :
    (runOps fs ((save_state_ops (save_state_record content_hash test_dates) encode).take k)).canonical
        = fs.canonical ∧
    (save_state fs content_hash test_dates encode).canonical
        = some (encode (save_state_record content_hash test_dates)) ∧
    ∀ s, (applySaveOp fs (SaveOp.writeTemp s)).canonical = fs.canonical := by
  refine ⟨?_, ?_, fun s => rfl⟩
  · have hk2 : k < 2 := by simpa [save_state_ops] using hk
    interval_cases k <;> simp [runOps, save_state_ops, applySaveOp]
  · simp [save_state, runOps, save_state_ops, applySaveOp]

/-- Witness for C5: interrupting after the temporary write leaves the old
canonical contents; the completed save installs the new record. -/
theorem c5_atomic_save_witness :
    (runOps ⟨some "old", none, []⟩
        ((save_state_ops (save_state_record "newhash" ["Jun 6, 2026"])
          (fun st => st.content_hash)).take 1)).canonical = some "old" ∧
    (save_state ⟨some "old", none, []⟩ "newhash" ["Jun 6, 2026"]
        (fun st => st.content_hash)).canonical = some "newhash" ∧
    ∀ s, (applySaveOp ⟨some "old", none, []⟩ (SaveOp.writeTemp s)).canonical
        = some "old" :=
  c5_atomic_save ⟨some "old", none, []⟩ "newhash" ["Jun 6, 2026"]
    (fun st => st.content_hash) 1 (by decide)

/-- C6: `load_state` returns `none` when no state file exists, and on
malformed contents returns `none` without raising while renaming the file
to a timestamped quarantine entry — the old bytes are preserved, nothing
already quarantined is deleted, and the canonical slot is cleared rather
than overwritten in place. -/
theorem c6_load_absent_or_quarantine (fs : FileSys)
    (parseJson : String → Option PersistedState) (now : Nat) :
    (fs.canonical = none → load_state fs parseJson now = (none, fs)) ∧
    (∀ raw, fs.canonical = some raw → parseJson raw = none →
      (load_state fs parseJson now).1 = none ∧
      (load_state fs parseJson now).2.canonical = none ∧
      (now, raw) ∈ (load_state fs parseJson now).2.quarantined ∧
      ∀ q ∈ fs.quarantined, q ∈ (load_state fs parseJson now).2.quarantined) := by
  constructor
  · intro h
    simp [load_state, h]
  · intro raw hc hp
    refine ⟨?_, ?_, ?_, ?_⟩
    · simp [load_state, hc, hp]
    · simp [load_state, hc, hp]
    · simp [load_state, hc, hp]
    · intro q hq
      simp only [load_state, hc, hp, List.mem_cons]
      exact Or.inr hq

/-- Witness for C6: an absent file loads as `none`; a malformed file loads
as `none`, is quarantined with its timestamp and contents, and older
quarantined files survive. -/
theorem c6_load_absent_or_quarantine_witness :
    load_state ⟨none, none, []⟩ (fun _ => none) 5 = (none, ⟨none, none, []⟩) ∧
    (load_state ⟨some "junk", none, [(1, "old")]⟩ (fun _ => none) 7).1 = none ∧
    (load_state ⟨some "junk", none, [(1, "old")]⟩ (fun _ => none) 7).2.canonical
        = none ∧
    (7, "junk") ∈
      (load_state ⟨some "junk", none, [(1, "old")]⟩ (fun _ => none) 7).2.quarantined ∧
    (1, "old") ∈
      (load_state ⟨some "junk", none, [(1, "old")]⟩ (fun _ => none) 7).2.quarantined := by
  have h1 := (c6_load_absent_or_quarantine ⟨none, none, []⟩ (fun _ => none) 5).1 rfl
  have h2 := (c6_load_absent_or_quarantine ⟨some "junk", none, [(1, "old")]⟩
    (fun _ => none) 7).2 "junk" rfl rfl
  exact ⟨h1, h2.1, h2.2.1, h2.2.2.1, h2.2.2.2 (1, "old") (by simp)⟩

/-- C10: any record persisted by a completed run (written via
`save_state`) has `test_date_count` equal to the length of `test_dates`. -/
theorem c10_count_matches_dates (md5 : String → String)
    (att : Nat → Option (List Node)) (stored : Option PersistedState)
    (pd : FetchData) (st : PersistedState)
    (hf : fetch_page md5 att = some pd)
    (hs : (main md5 att stored).savedState = some st) :
    st.test_date_count = st.test_dates.length := by
  simp only [main, hf] at hs
  simp only [Option.some.injEq] at hs
  rw [← hs]
  rfl

/-- A member that fails the predicate survives `dropWhile`. -/
theorem mem_dropWhile_of_neg {α : Type} (p : α → Bool) {l : List α} {x : α}
    (hx : x ∈ l) (hp : p x = false) : x ∈ l.dropWhile p := by
  induction l with
  | nil => cases hx
  | cons a as ih =>
    rw [List.dropWhile_cons]
    by_cases ha : p a = true
    · simp only [ha, if_true]
      apply ih
      rcases List.mem_cons.mp hx with h | h
      · subst h
        rw [hp] at ha
        cases ha
      · exact h
    · simp only [ha, if_false]
      exact hx

/-- A prefix of a list with no leading match has no leading match. -/
theorem dropWhile_eq_self_of_prefix {α : Type} (p : α → Bool) {r a : List α}
    (hpre : r <+: a) (ha : a.dropWhile p = a) : r.dropWhile p = r := by
  cases r with
  | nil => rfl
  | cons x xs =>
    obtain ⟨tl, htl⟩ := hpre
    subst htl
    have h0 : 0 < (x :: xs ++ tl).length := by simp
    have hx' := List.dropWhile_eq_self_iff.mp ha h0
    simp only [List.cons_append, List.get] at hx'
    have hx : p x = false := by
      cases hb : p x
      · rfl
      · exact absurd hb hx'
    rw [List.dropWhile_cons, hx]
    simp

/-- The character data of `pyStrip` is a right-strip of a left-strip. -/
theorem pyStrip_data (s : String) :
    (pyStrip s).data
      = List.rdropWhile pyIsSpace (List.dropWhile pyIsSpace s.data) := rfl

/-- Stripping is idempotent, as for Python's `str.strip()`. -/
theorem pyStrip_idem (s : String) : pyStrip (pyStrip s) = pyStrip s := by
  apply String.ext
  rw [pyStrip_data, pyStrip_data]
  have h1 : List.dropWhile pyIsSpace
      (List.rdropWhile pyIsSpace (List.dropWhile pyIsSpace s.data))
      = List.rdropWhile pyIsSpace (List.dropWhile pyIsSpace s.data) := by
    apply dropWhile_eq_self_of_prefix pyIsSpace (List.rdropWhile_prefix _ _)
    exact List.dropWhile_idempotent _ _
  rw [h1, List.rdropWhile_idempotent]

/-- A non-whitespace member of a string survives `pyStrip`. -/
theorem mem_pyStrip {s : String} {c : Char} (hc : c ∈ s.data)
    (hns : pyIsSpace c = false) : c ∈ (pyStrip s).data := by
  rw [pyStrip_data]
  have h1 : c ∈ s.data.dropWhile pyIsSpace := mem_dropWhile_of_neg _ hc hns
  unfold List.rdropWhile
  rw [List.mem_reverse]
  exact mem_dropWhile_of_neg _ (List.mem_reverse.mpr h1) hns

/-- Digits are not whitespace. -/
theorem isDigit_not_space {c : Char} (h : c.isDigit = true) :
    pyIsSpace c = false := by
  cases hc : pyIsSpace c
  · rfl
  · exfalso
    simp only [pyIsSpace, Bool.or_eq_true, decide_eq_true_eq] at hc
    rcases hc with ((((h1 | h1) | h1) | h1) | h1) | h1 <;> subst h1 <;>
      exact absurd h (by decide)

/-- Every string produced by `datesFromTable` is non-empty after stripping
and carries a digit. -/
theorem datesFromTable_invariant (t : Node) (d : String)
    (hd : d ∈ datesFromTable t) :
    pyStrip d ≠ "" ∧ d.data.any Char.isDigit = true := by
  unfold datesFromTable at hd
  rw [List.mem_filterMap] at hd
  obtain ⟨row, _, hrow⟩ := hd
  rcases hcell : findFirstList isDateCell (childrenOf row) with _ | cell
  · simp [hcell] at hrow
  · simp only [hcell] at hrow
    by_cases hg : (!(pyStrip (nodeTextOf cell)).data.isEmpty
        && (nodeTextOf cell).data.any Char.isDigit) = true
    · rw [if_pos hg] at hrow
      rw [Option.some.injEq] at hrow
      subst hrow
      rw [Bool.and_eq_true, Bool.not_eq_true'] at hg
      constructor
      · rw [pyStrip_idem]
        intro hbad
        have h1 := hg.1
        rw [hbad] at h1
        simp at h1
      · rw [List.any_eq_true] at hg ⊢
        obtain ⟨c, hcmem, hcdig⟩ := hg.2
        exact ⟨c, mem_pyStrip hcmem (isDigit_not_space hcdig), hcdig⟩
    · rw [if_neg hg] at hrow
      cases hrow

/-- C9: every entry the extractor returns is non-empty after trimming
whitespace and contains at least one digit character; a cell empty after
trimming or digit-free never contributes an entry. -/
theorem c9_entry_invariant (doc : List Node) (d : String)
    (hd : d ∈ extract_test_dates doc) :
    pyStrip d ≠ "" ∧ d.data.any Char.isDigit = true := by
  rcases h1 : findFirstList hasTargetMarker doc with _ | t
  · rcases h2 : (findAllList isTable doc).find? fallbackTablePred with _ | t
    · simp [extract_test_dates, h1, h2] at hd
    · simp only [extract_test_dates, h1, h2] at hd
      exact datesFromTable_invariant t d hd
  · simp only [extract_test_dates, h1] at hd
    exact datesFromTable_invariant t d hd

/-- Witness for C9 at a concrete extracted entry. -/
theorem c9_entry_invariant_witness :
    pyStrip "Aug 23, 2025" ≠ "" ∧
    "Aug 23, 2025".data.any Char.isDigit = true :=
  c9_entry_invariant
    [Node.element "table" [("class", "cb-table cb-no-margin-top")] [
      Node.element "tr" [] [Node.element "th" [] [Node.text "Test Date"]],
      Node.element "tr" [] [Node.element "th" [("scope", "row")]
        [Node.text " Aug 23, 2025 "]]]]
    "Aug 23, 2025" (by decide)

/-- C8: when no table carries the expected class marker, the extractor
falls back to the first table that has a `th` descendant and the word
`date` in its text, and extracts that table's rows instead of returning
nothing by default. -/
theorem c8_fallback_scan (doc : List Node) (t : Node)
    (h1 : findFirstList hasTargetMarker doc = none)
    (h2 : (findAllList isTable doc).find? fallbackTablePred = some t) :
    extract_test_dates doc = datesFromTable t ∧ fallbackTablePred t = true := by
  constructor
  · simp [extract_test_dates, h1, h2]
  · exact List.find?_some h2

/-- Witness for C8: a table without the expected class is still found and
its row extracted. -/
theorem c8_fallback_scan_witness :
    extract_test_dates
        [Node.element "table" [] [
          Node.element "tr" [] [Node.element "th" [] [Node.text "Date"]],
          Node.element "tr" [] [Node.element "th" [("scope", "row")]
            [Node.text "Oct 4, 2025"]]]]
      = datesFromTable
          (Node.element "table" [] [
            Node.element "tr" [] [Node.element "th" [] [Node.text "Date"]],
            Node.element "tr" [] [Node.element "th" [("scope", "row")]
              [Node.text "Oct 4, 2025"]]]) ∧
    fallbackTablePred
        (Node.element "table" [] [
          Node.element "tr" [] [Node.element "th" [] [Node.text "Date"]],
          Node.element "tr" [] [Node.element "th" [("scope", "row")]
            [Node.text "Oct 4, 2025"]]]) = true ∧
    extract_test_dates
        [Node.element "table" [] [
          Node.element "tr" [] [Node.element "th" [] [Node.text "Date"]],
          Node.element "tr" [] [Node.element "th" [("scope", "row")]
            [Node.text "Oct 4, 2025"]]]]
      = ["Oct 4, 2025"] := by
  have h := c8_fallback_scan
    [Node.element "table" [] [
      Node.element "tr" [] [Node.element "th" [] [Node.text "Date"]],
      Node.element "tr" [] [Node.element "th" [("scope", "row")]
        [Node.text "Oct 4, 2025"]]]]
    (Node.element "table" [] [
      Node.element "tr" [] [Node.element "th" [] [Node.text "Date"]],
      Node.element "tr" [] [Node.element "th" [("scope", "row")]
        [Node.text "Oct 4, 2025"]]])
    rfl rfl
  exact ⟨h.1, h.2, by decide⟩

/-- Cosmetically similar attribute lists agree after the volatile
attributes are stripped. -/
theorem attrsSimilar_filter (a1 a2 : List (String × String))
    (h : attrsSimilar a1 a2 = true) :
    a1.filter (fun a => !isVolatileAttr a.1)
      = a2.filter (fun a => !isVolatileAttr a.1) := by
  induction a1 generalizing a2 with
  | nil =>
    cases a2 with
    | nil => rfl
    | cons b bs => simp [attrsSimilar] at h
  | cons a as ih =>
    cases a2 with
    | nil => simp [attrsSimilar] at h
    | cons b bs =>
      simp only [attrsSimilar, attrSimilar, Bool.and_eq_true, Bool.or_eq_true,
        decide_eq_true_eq] at h
      obtain ⟨⟨hn, hv⟩, hrest⟩ := h
      rw [List.filter_cons, List.filter_cons]
      rcases hv with hvol | hval
      · have hb : isVolatileAttr b.1 = true := by rw [← hn]; exact hvol
        rw [if_neg (by simp [hvol]), if_neg (by simp [hb])]
        exact ih bs hrest
      · have hab : a = b := Prod.ext hn hval
        subst hab
        rw [ih bs hrest]

mutual
/-- Cleaning maps cosmetically similar nodes to the same result: removed
elements vanish on both sides, and on kept elements the non-volatile
attributes and the cleaned children agree. -/
theorem cleanNode_congr (n1 n2 : Node) (h : similarNode n1 n2 = true) :
    cleanNode n1 = cleanNode n2 := by
  cases n1 with
  | text s =>
    cases n2 with
    | text t =>
      simp only [similarNode, decide_eq_true_eq] at h
      rw [h]
    | comment t => simp [similarNode] at h
    | element nm a c => simp [similarNode] at h
  | comment s =>
    cases n2 with
    | comment t => rfl
    | text t => simp [similarNode] at h
    | element nm a c => simp [similarNode] at h
  | element nm a1 c1 =>
    cases n2 with
    | text t => simp [similarNode] at h
    | comment t => simp [similarNode] at h
    | element nm2 a2 c2 =>
      simp only [similarNode, Bool.and_eq_true, Bool.or_eq_true,
        decide_eq_true_eq] at h
      obtain ⟨⟨hn, ha⟩, hc⟩ := h
      subst hn
      by_cases hrm : (decide (nm = "script") || decide (nm = "style")
          || decide (nm = "meta")) = true
      · simp only [cleanNode, hrm, if_true]
      · have hscript : ¬ nm = "script" := by
          intro hs
          exact hrm (by simp [hs])
        have hsim : similarNodes c1 c2 = true := by
          rcases hc with hs | hsim
          · exact absurd hs hscript
          · exact hsim
        simp only [cleanNode, hrm, if_false]
        rw [attrsSimilar_filter a1 a2 ha, cleanNodes_congr c1 c2 hsim]

/-- Cleaning maps cosmetically similar forests to the same result. -/
theorem cleanNodes_congr (l1 l2 : List Node) (h : similarNodes l1 l2 = true) :
    cleanNodes l1 = cleanNodes l2 := by
  cases l1 with
  | nil =>
    cases l2 with
    | nil => rfl
    | cons m ms => simp [similarNodes] at h
  | cons n ns =>
    cases l2 with
    | nil => simp [similarNodes] at h
    | cons m ms =>
      simp only [similarNodes, Bool.and_eq_true] at h
      simp only [cleanNodes]
      rw [cleanNode_congr n m h.1, cleanNodes_congr ns ms h.2]
end

/-- C7: two documents that differ only in script contents or in the
values of `class`, `id`, `style` or `data-*` attributes clean to the same
text and therefore hash to the same signature, whatever the digest
function. -/
theorem c7_cosmetic_hash_stable (d1 d2 : List Node) (md5 : String → String)
    (h : similarNodes d1 d2 = true) :
    clean_html_for_hash d1 = clean_html_for_hash d2 ∧
    calculate_content_hash md5 d1 = calculate_content_hash md5 d2 := by
  have hc : cleanNodes d1 = cleanNodes d2 := cleanNodes_congr d1 d2 h
  constructor
  · simp only [clean_html_for_hash, hc]
  · simp only [calculate_content_hash, clean_html_for_hash, hc]

/-- Witness for C7: an inline script timestamp and `class`, `id`,
`style` and `data-*` attribute values change, the signature does not. -/
theorem c7_cosmetic_hash_stable_witness :
    clean_html_for_hash
        [Node.element "html" [] [
          Node.element "script" [] [Node.text "var t = 1111;"],
          Node.element "div"
            [("class", "a"), ("id", "x"), ("style", "color:red"),
             ("data-reactid", ".0"), ("lang", "en")]
            [Node.text "SAT dates"]]]
      = clean_html_for_hash
        [Node.element "html" [] [
          Node.element "script" [] [Node.text "var t = 2222;"],
          Node.element "div"
            [("class", "b"), ("id", "y"), ("style", "color:blue"),
             ("data-reactid", ".7"), ("lang", "en")]
            [Node.text "SAT dates"]]] ∧
    calculate_content_hash (fun s => s)
        [Node.element "html" [] [
          Node.element "script" [] [Node.text "var t = 1111;"],
          Node.element "div"
            [("class", "a"), ("id", "x"), ("style", "color:red"),
             ("data-reactid", ".0"), ("lang", "en")]
            [Node.text "SAT dates"]]]
      = calculate_content_hash (fun s => s)
        [Node.element "html" [] [
          Node.element "script" [] [Node.text "var t = 2222;"],
          Node.element "div"
            [("class", "b"), ("id", "y"), ("style", "color:blue"),
             ("data-reactid", ".7"), ("lang", "en")]
            [Node.text "SAT dates"]]] :=
  c7_cosmetic_hash_stable _ _ _ (by decide)

/-- Witness for C10 on a one-attempt run over a trivial document. -/
theorem c10_count_matches_dates_witness :
    (save_state_record (calculate_content_hash (fun s => s) [Node.text "x"])
        (extract_test_dates [Node.text "x"])).test_date_count =
      (save_state_record (calculate_content_hash (fun s => s) [Node.text "x"])
        (extract_test_dates [Node.text "x"])).test_dates.length :=
  c10_count_matches_dates (fun s => s) (fun _ => some [Node.text "x"]) none
    ⟨[Node.text "x"], calculate_content_hash (fun s => s) [Node.text "x"]⟩ _
    rfl rfl

end SatMonitor
